import Mathlib

set_option maxRecDepth 8192

/-!
Verification development for the wlx212 admin-GUI scraping exporter (`src/main.go`).

The Go program is shallowly embedded: pure helpers become Lean functions, the
network-dependent parts (HTTP fetches, channel scheduling) become explicit
parameters describing the outcome of each external interaction, Go `error`
values become `Option String` / `Except String`, and Go runtime panics are a
distinguished outcome constructor.  Machine integers are modelled as `Int`
(Go `int`); none of the embedded arithmetic can overflow 64 bits on the
inputs the program handles, and overflow of `strconv.Atoi` is modelled by an
explicit range check.
-/

/-- Embeds the Go struct `EnvVars` (src/main.go:28-32). -/
structure EnvVars where
  virtualControllerVIP : String
  virtualControllerGUIUser : String
  virtualControllerGUIPass : String
deriving DecidableEq

/-- Embeds `AccessPointReadFromControllerGUI` (src/main.go:34-38). -/
structure AccessPointReadFromControllerGUI where
  hostName : String
  activeConnections : Int
  ipAddress : String
deriving DecidableEq

/-- Embeds `AccessPointDetailReadFromTargetApGUI` (src/main.go:40-43). -/
structure AccessPointDetailReadFromTargetApGUI where
  active5GHzConnections : Int
  active2_4GHzConnections : Int
deriving DecidableEq

/-- Embeds `ReconstructedApData` (src/main.go:45-48): the two embedded Go
structs become explicit fields; Go field promotion (`ap.HostName`) reads
through `summary`. -/
structure ReconstructedApData where
  summary : AccessPointReadFromControllerGUI
  detail : AccessPointDetailReadFromTargetApGUI
deriving DecidableEq

/-- The loop of `retryImmediately` (src/main.go:19-24), embedded with the
attempt index `i` explicit and the remaining iteration count as fuel.
`outerErr` is the `var err error` declared at src/main.go:18: the loop body's
`result, err := f()` declares a NEW `err` that shadows it, so the outer
variable is never assigned and still holds its zero value (`none`) when the
loop exhausts; the final `return nil, err, maxRetryCount` therefore returns
`(none, outerErr, maxRetryCount)`.  A stateful Go closure `f` is determinized
as a function from the attempt number to that attempt's outcome. -/
def retryLoop {α ε : Type} (f : Nat → Except ε α) (outerErr : Option ε) (maxRetryCount : Int)
    (i : Nat) : Nat → Option α × Option ε × Int
  | 0 => (none, outerErr, maxRetryCount)
  | n + 1 =>
    match f i with
    | Except.ok result => (some result, none, (i : Int))
    | Except.error _ => retryLoop f outerErr maxRetryCount (i + 1) n

/-- Embeds `retryImmediately` (src/main.go:17-26).  The Go loop
`for i := 0; i < maxRetryCount; i++` performs `max maxRetryCount 0 = maxRetryCount.toNat`
iterations starting at `i = 0`. -/
def retryImmediately {α ε : Type} (f : Nat → Except ε α) (maxRetryCount : Int) :
    Option α × Option ε × Int :=
  retryLoop f none maxRetryCount 0 maxRetryCount.toNat

theorem retryLoop_all_fail {α ε : Type} (f : Nat → Except ε α) (m : Int) (fuel : Nat) :
    ∀ i : Nat, (∀ j, i ≤ j → j < i + fuel → ∃ e, f j = Except.error e) →
    retryLoop f none m i fuel = (none, none, m) := by
  induction fuel with
  | zero => intro i _; rfl
  | succ n ih =>
    intro i h
    obtain ⟨e, he⟩ := h i (Nat.le_refl i) (by omega)
    simp only [retryLoop, he]
    exact ih (i + 1) (fun j hj1 hj2 => h j (by omega) (by omega))

/-- C1 counterexample: with an operation that fails on every invocation
(`f i = error i`) and `max_attempts = 2`, `retryImmediately` returns
`(none, none, 2)`: the final-error component is `none`, NOT the error `1` of
the 2nd (last) invocation — the loop-local `err` shadows the outer `err`
declared at src/main.go:18, so the last error is lost — and the third
component is the attempt count `2`, not a list of the two errors. -/
theorem C1_retry_last_error_counterexample :
    retryImmediately (fun i => (Except.error i : Except Nat Nat)) 2 = (none, none, 2) ∧
    (none : Option Nat) ≠ some 1 := by
  exact ⟨rfl, by decide⟩

/-- C1 (amended): for every operation `f` and `max_attempts = m ≥ 1`, if all
`m` invocations fail, `retryImmediately` returns no result, a `none` final
error (the last error is lost because the loop-local `err` shadows the outer
one), and the attempt count `m` as the third component; no list of the
encountered errors is returned (the Go function returns an `int`, not a
slice of errors). -/
theorem C1_retry_all_fail_amended {α ε : Type} (f : Nat → Except ε α) (m : Int)
    (_hm : 1 ≤ m) (hfail : ∀ j, j < m.toNat → ∃ e, f j = Except.error e) :
    retryImmediately f m = (none, none, m) := by
  unfold retryImmediately
  exact retryLoop_all_fail f m m.toNat 0 (fun j _ hj2 => hfail j (by omega))

theorem C1_retry_all_fail_witness :
    (1 : Int) ≤ 2 ∧
    retryImmediately (fun i => (Except.error (i + 10) : Except Nat Nat)) 2 = (none, none, 2) :=
  ⟨by decide, C1_retry_all_fail_amended (fun i => (Except.error (i + 10) : Except Nat Nat)) 2
    (by decide) (fun j _ => ⟨j + 10, rfl⟩)⟩

/-- C7 counterexample: invoked with `max_attempts = 0 < 1`, the Go function
does not panic or fail fast: the loop body never runs and the function
returns normally with `(nil, nil, 0)` — there is no assertion on
`maxRetryCount` anywhere in src/main.go:17-26. -/
theorem C7_retry_no_panic_counterexample :
    retryImmediately (fun i => (Except.error i : Except Nat Nat)) 0 = (none, none, 0) := rfl

/-- C7 (amended): for every operation and every `max_attempts < 1`, the retry
wrapper performs no invocation and returns normally with no result, a `nil`
error and `max_attempts` itself as the reported attempt count; it does not
panic or fail fast. -/
theorem C7_retry_below_one_amended {α ε : Type} (f : Nat → Except ε α) (m : Int) (hm : m < 1) :
    retryImmediately f m = (none, none, m) := by
  unfold retryImmediately
  have h0 : m.toNat = 0 := Int.toNat_of_nonpos (by omega)
  rw [h0]
  rfl

theorem C7_retry_below_one_witness :
    (-3 : Int) < 1 ∧
    retryImmediately (fun i => (Except.error i : Except Nat Nat)) (-3) = (none, none, -3) :=
  ⟨by decide, C7_retry_below_one_amended (fun i => (Except.error i : Except Nat Nat)) (-3)
    (by decide)⟩

/-- Embeds `fetchApDetailFromApGUI` (src/main.go:144-146): a stub that
ignores its arguments and returns the zero-valued detail struct and a `nil`
error. -/
def fetchApDetailFromApGUI (_env : EnvVars) (_ap : AccessPointReadFromControllerGUI) :
    AccessPointDetailReadFromTargetApGUI × Option String :=
  (⟨0, 0⟩, none)

/-- Outcome of a Go function that can return a value, return an error, or
panic at runtime. -/
inductive GoRes (α : Type) where
  | ok (val : α)
  | err (msg : String)
  | panicked (msg : String)
deriving DecidableEq

def GoRes.isOk {α : Type} : GoRes α → Bool
  | GoRes.ok _ => true
  | _ => false

def GoRes.isReturnedErr {α : Type} : GoRes α → Bool
  | GoRes.err _ => true
  | _ => false

/-- Possible outcomes of one call of `reconstructAllApData`
(src/main.go:148-193): a returned value, a returned error, blocking forever
on a channel receive, or a runtime panic. -/
inductive RunOutcome (α : Type) where
  | ok (val : α)
  | err (msg : String)
  | blocked
  | panicked (msg : String)
deriving DecidableEq

/-- The operation retried inside each per-AP goroutine (src/main.go:167-170):
one attempt calls `fetchApDetailFromApGUI` and wraps its pair result into the
`(*T, error)` shape consumed by `retryImmediately`. -/
def apDetailAttempt (env : EnvVars) (ap : AccessPointReadFromControllerGUI) :
    Nat → Except String AccessPointDetailReadFromTargetApGUI :=
  fun _ =>
    match fetchApDetailFromApGUI env ap with
    | (detail, none) => Except.ok detail
    | (_, some e) => Except.error e

/-- The body of the goroutine spawned per AP (src/main.go:165-181) as a
function of the retried operation's result triple:
* a non-nil error takes the warn-and-return branch (src/main.go:173-176) —
  the goroutine sends nothing (`GoRes.err`).  Because of the `err` shadowing
  inside `retryImmediately` this branch is DEAD CODE: the wrapper's error
  component is always nil;
* a nil error falls through to `detailChan <- *detail` (src/main.go:180):
  with a result, that value is sent (`GoRes.ok`); after retry exhaustion the
  triple is `(nil, nil, 5)`, so the nil `detail` pointer is dereferenced —
  a runtime panic that crashes the whole process (`GoRes.panicked`). -/
def goroutineBodySend :
    Option AccessPointDetailReadFromTargetApGUI × Option String × Int →
      GoRes AccessPointDetailReadFromTargetApGUI
  | (_, some e, _) => GoRes.err e
  | (some detail, none, _) => GoRes.ok detail
  | (none, none, _) =>
    GoRes.panicked ("runtime error: invalid memory address or nil pointer dereference")

/-- Full outcome of the goroutine spawned for `ap`: the retried detail fetch
(5 attempts, src/main.go:166-172) fed through the goroutine body. -/
def apDetailTaskOutcome (env : EnvVars) (ap : AccessPointReadFromControllerGUI) :
    GoRes AccessPointDetailReadFromTargetApGUI :=
  goroutineBodySend (retryImmediately (apDetailAttempt env ap) 5)

/-- What the goroutine spawned for `ap` sends on `detailChan`: a value only
in the successful case.  In the `GoRes.err` case (dead code) the goroutine
returns without sending; in the `GoRes.panicked` case the process crashes
before any send. -/
def apDetailTaskSend (env : EnvVars) (ap : AccessPointReadFromControllerGUI) :
    Option AccessPointDetailReadFromTargetApGUI :=
  match apDetailTaskOutcome env ap with
  | GoRes.ok detail => some detail
  | GoRes.err _ => none
  | GoRes.panicked _ => none

/-- The collection loop of `reconstructAllApData` (src/main.go:184-190):
`reconstructedAps` is allocated with length `len(*aps)` and the loop performs
exactly one channel receive per inventory entry, pairing the `i`-th received
value with the `i`-th AP in inventory order.  `arrival` is the sequence of
values received on `detailChan` in arrival order.  If fewer values than
`len(aps)` are ever sent, the loop blocks forever on the next receive, which
is modelled as `none`. -/
def reconstructJoin (aps : List AccessPointReadFromControllerGUI)
    (arrival : List AccessPointDetailReadFromTargetApGUI) :
    Option (List ReconstructedApData) :=
  if arrival.length < aps.length then none
  else some (List.zipWith (fun ap d => ⟨ap, d⟩) aps arrival)

/-- Embeds `reconstructAllApData` (src/main.go:148-193).  The controller
fetch is network-dependent, so it is a parameter `controllerFetch` giving the
outcome of each attempt; `arrival` is the sequence of values received on
`detailChan` (constrained in the theorems to be an interleaving of what the
per-AP tasks send).  Notes on faithfulness to the Go code:
* on retry exhaustion `retryImmediately` returns a `nil` error (shadowing,
  see `retryLoop`), so the `err != nil` branch at src/main.go:156 is dead and
  the dereference `*aps` at src/main.go:164 panics on a nil pointer;
* the `err != nil` branch is still embedded (`RunOutcome.err`) as written. -/
def reconstructAllApData (controllerFetch : Nat → Except String (List AccessPointReadFromControllerGUI))
    (_env : EnvVars) (arrival : List AccessPointDetailReadFromTargetApGUI) :
    RunOutcome (List ReconstructedApData) :=
  match retryImmediately controllerFetch 3 with
  | (some aps, _, _) =>
    match reconstructJoin aps arrival with
    | some l => RunOutcome.ok l
    | none => RunOutcome.blocked
  | (none, some e, _) => RunOutcome.err e
  | (none, none, _) =>
    RunOutcome.panicked ("runtime error: invalid memory address or nil pointer dereference")

/-- A concrete configuration value used by witnesses. -/
def envDemo : EnvVars := ⟨"10.0.0.254", "admin", "secret"⟩

/-- Concrete AP summaries used by witnesses and counterexamples. -/
def apA : AccessPointReadFromControllerGUI := ⟨"ap-01", 10, "10.0.0.1"⟩

def apB : AccessPointReadFromControllerGUI := ⟨"ap-02", 9, "10.0.0.2"⟩

/-- C2: a per-AP detail fetch that fails all 5 attempts cannot be "dropped
with a logged warning while the request succeeds with N−1 entries", twice
over.  (1) The retry wrapper hands the goroutine `(nil, nil, 5)` — the
shadowed error is nil — so the warn-and-return branch at src/main.go:173-176
is dead, and the goroutine instead panics dereferencing the nil `*detail`
at src/main.go:180, crashing the whole process: no warning, no response
(first two conjuncts, at an always-failing fetch).  (2) Independently of the
task mechanism, the collection loop receives exactly `len(*aps)` values into
a `len(*aps)`-entry slice (src/main.go:184-190), so an (N−1)-entry output is
structurally impossible: were a failed task merely to withhold its send as
the spec describes, the join would block forever (last two conjuncts, N = 2
with one send missing). -/
theorem C2_failed_detail_task_cannot_be_dropped :
    retryImmediately
        (fun _ => (Except.error ("connect: no route to host") :
          Except String AccessPointDetailReadFromTargetApGUI)) 5 = (none, none, 5) ∧
    goroutineBodySend
        (retryImmediately
          (fun _ => (Except.error ("connect: no route to host") :
            Except String AccessPointDetailReadFromTargetApGUI)) 5) =
      GoRes.panicked ("runtime error: invalid memory address or nil pointer dereference") ∧
    reconstructAllApData (fun _ => Except.ok [apA, apB]) envDemo [⟨0, 0⟩] = RunOutcome.blocked ∧
    reconstructJoin [apA, apB] [⟨0, 0⟩] = none :=
  ⟨rfl, rfl, rfl, rfl⟩

theorem apDetailTaskSend_eq (env : EnvVars) (ap : AccessPointReadFromControllerGUI) :
    apDetailTaskSend env ap = some ⟨0, 0⟩ := rfl

theorem filterMap_apDetailTaskSend (env : EnvVars)
    (aps : List AccessPointReadFromControllerGUI) :
    aps.filterMap (apDetailTaskSend env) =
      aps.map (fun _ => (⟨0, 0⟩ : AccessPointDetailReadFromTargetApGUI)) := by
  induction aps with
  | nil => rfl
  | cons a t ih => simp [List.filterMap_cons, apDetailTaskSend_eq, ih]

theorem mem_zipWith_parts {α β γ : Type} (f : α → β → γ) :
    ∀ (as : List α) (bs : List β) (x : γ),
      x ∈ List.zipWith f as bs → ∃ a b, a ∈ as ∧ b ∈ bs ∧ x = f a b := by
  intro as
  induction as with
  | nil => intro bs x h; simp [List.zipWith] at h
  | cons a t ih =>
    intro bs x h
    cases bs with
    | nil => simp [List.zipWith] at h
    | cons b bt =>
      simp only [List.zipWith, List.mem_cons] at h
      rcases h with h | h
      · exact ⟨a, b, List.mem_cons_self a t, List.mem_cons_self b bt, h⟩
      · obtain ⟨a', b', ha, hb, hx⟩ := ih bt x h
        exact ⟨a', b', List.mem_cons_of_mem a ha, List.mem_cons_of_mem b hb, hx⟩

/-- C8: for every inventory and every interleaving of task completions
(`arrival` is any permutation of the multiset of values the per-AP tasks
send), the `i`-th output entry pairs the `i`-th AP summary with exactly the
detail value that this AP's own task produced.  Note this holds only because
`fetchApDetailFromApGUI` is a stub returning the identical zero detail for
every AP: `detailChan` itself carries no information about which AP a value
came from, and the loop pairs values positionally in arrival order. -/
theorem C8_join_pairs_entries_with_own_task (env : EnvVars)
    (aps : List AccessPointReadFromControllerGUI)
    (arrival : List AccessPointDetailReadFromTargetApGUI)
    (l : List ReconstructedApData)
    (hperm : arrival.Perm (aps.filterMap (apDetailTaskSend env)))
    (hjoin : reconstructJoin aps arrival = some l) :
    ∀ (i : Nat) (hi : i < l.length) (hi' : i < aps.length),
      apDetailTaskSend env (aps.get ⟨i, hi'⟩) = some ((l.get ⟨i, hi⟩).detail) ∧
      (l.get ⟨i, hi⟩).summary = aps.get ⟨i, hi'⟩ := by
  unfold reconstructJoin at hjoin
  split at hjoin
  · exact absurd hjoin (by simp)
  next hlen =>
    have hl : List.zipWith (fun ap d => (⟨ap, d⟩ : ReconstructedApData)) aps arrival = l :=
      Option.some.inj hjoin
    subst hl
    intro i hi hi'
    have hia : i < arrival.length := by omega
    have hget : (List.zipWith (fun ap d => (⟨ap, d⟩ : ReconstructedApData)) aps arrival).get
        ⟨i, hi⟩ = ⟨aps.get ⟨i, hi'⟩, arrival.get ⟨i, hia⟩⟩ := by
      simp [List.getElem_zipWith]
    have harr : arrival.get ⟨i, hia⟩ = ⟨0, 0⟩ := by
      have hmem : arrival.get ⟨i, hia⟩ ∈ arrival := List.get_mem arrival i hia
      have hmem2 := hperm.subset hmem
      rw [filterMap_apDetailTaskSend] at hmem2
      obtain ⟨a, _, hx⟩ := List.mem_map.mp hmem2
      exact hx.symm
    rw [hget, harr]
    exact ⟨apDetailTaskSend_eq env _, rfl⟩

theorem C8_join_pairs_entries_with_own_task_witness :
    ([⟨0, 0⟩] : List AccessPointDetailReadFromTargetApGUI).Perm
      ([apA].filterMap (apDetailTaskSend envDemo)) ∧
    reconstructJoin [apA] [⟨0, 0⟩] = some [⟨apA, ⟨0, 0⟩⟩] ∧
    (apDetailTaskSend envDemo ([apA].get ⟨0, Nat.zero_lt_one⟩) =
        some ((([⟨apA, ⟨0, 0⟩⟩] : List ReconstructedApData).get ⟨0, Nat.zero_lt_one⟩).detail) ∧
      (([⟨apA, ⟨0, 0⟩⟩] : List ReconstructedApData).get ⟨0, Nat.zero_lt_one⟩).summary =
        [apA].get ⟨0, Nat.zero_lt_one⟩) :=
  ⟨List.Perm.refl _, rfl,
    C8_join_pairs_entries_with_own_task envDemo [apA] [⟨0, 0⟩] [⟨apA, ⟨0, 0⟩⟩]
      (List.Perm.refl _) rfl 0 Nat.zero_lt_one Nat.zero_lt_one⟩

/-- C10: `fetchApDetailFromApGUI` always returns the zero-valued detail and
no error; consequently every per-AP task succeeds on its first attempt and
sends `⟨0, 0⟩`, and every reconstructed AP built by the collection loop
reports 0 active connections for both bands, regardless of the target AP's
actual state. -/
theorem C10_detail_stub_always_zero :
    (∀ env ap, fetchApDetailFromApGUI env ap = (⟨0, 0⟩, none)) ∧
    (∀ env ap, apDetailTaskSend env ap = some ⟨0, 0⟩) ∧
    (∀ (env : EnvVars) (aps : List AccessPointReadFromControllerGUI)
        (arrival : List AccessPointDetailReadFromTargetApGUI) (l : List ReconstructedApData),
      arrival.Subperm (aps.filterMap (apDetailTaskSend env)) →
      reconstructJoin aps arrival = some l →
      ∀ x ∈ l, x.detail = ⟨0, 0⟩) := by
  refine ⟨fun _ _ => rfl, fun env ap => apDetailTaskSend_eq env ap, ?_⟩
  intro env aps arrival l hsub hjoin x hx
  unfold reconstructJoin at hjoin
  split at hjoin
  · exact absurd hjoin (by simp)
  next hlen =>
    have hl : List.zipWith (fun ap d => (⟨ap, d⟩ : ReconstructedApData)) aps arrival = l :=
      Option.some.inj hjoin
    subst hl
    obtain ⟨a, b, _, hb, hx⟩ := mem_zipWith_parts _ aps arrival x hx
    have hb2 := hsub.subset hb
    rw [filterMap_apDetailTaskSend] at hb2
    obtain ⟨c, _, hc⟩ := List.mem_map.mp hb2
    rw [hx]
    exact hc.symm

/-- Go regexp (RE2) character class `\s`: `[\t\n\f\r ]`. -/
def isGoRegexWs (c : Char) : Bool :=
  c = '\t' || c = '\n' || c = '\x0c' || c = '\r' || c = ' '

/-- White space trimmed by `strings.TrimSpace` (restricted to the ASCII
space characters; the scraped scripts contain no exotic Unicode space). -/
def isGoSpace (c : Char) : Bool :=
  c = ' ' || c = '\t' || c = '\n' || c = '\x0b' || c = '\x0c' || c = '\r'

/-- Models `strings.TrimSpace`. -/
def trimSpaceL (l : List Char) : List Char :=
  ((l.dropWhile isGoSpace).reverse.dropWhile isGoSpace).reverse

/-- `p` is a prefix of the second argument (used to model
`strings.TrimPrefix`, which strips only when the prefix is present). -/
def startsWithL : List Char → List Char → Bool
  | [], _ => true
  | _ :: _, [] => false
  | p :: ps, c :: cs => p == c && startsWithL ps cs

/-- The characters of the literal `"var apListData="`. -/
def apListPreChars : List Char := ("var apListData=").data

/-- Models `strings.TrimPrefix(s, "var apListData=")` (src/main.go:95). -/
def stripApListPre (l : List Char) : List Char :=
  if startsWithL apListPreChars l then l.drop apListPreChars.length else l

/-- Models `strings.TrimSuffix(s, ";")` (src/main.go:95). -/
def stripSemiSuf (l : List Char) : List Char :=
  if l.getLast? = some ';' then l.dropLast else l

/-- Models `lastElementTrailingComma.ReplaceAll(s, "]")` (src/main.go:90 and
94-98): the left-to-right, non-overlapping replacement of every match of the
RE2 pattern `,\s*]` by `]`.  The scan is embedded as a character-at-a-time
state machine: `st = some ws` means a `','` has been read, followed so far
exactly by the white-space run `ws`, and the scanner is still looking for the
closing `']'` of a match.  When the lookahead fails (a character that is
neither `\s` nor `']'`, or the end of input), the pending `','` and `ws` are
flushed unchanged — re-scanning them is unnecessary because a white-space
character can never start a match, which makes the machine equivalent to the
regexp scan. -/
def replCommaStep : List Char → Option (List Char) → List Char
  | [], none => []
  | [], some ws => ',' :: ws
  | c :: rest, none =>
    if c = ',' then replCommaStep rest (some [])
    else c :: replCommaStep rest none
  | c :: rest, some ws =>
    if c = ']' then ']' :: replCommaStep rest none
    else if isGoRegexWs c then replCommaStep rest (some (ws ++ [c]))
    else if c = ',' then (',' :: ws) ++ replCommaStep rest (some [])
    else (',' :: ws) ++ c :: replCommaStep rest none

/-- The cleanup pipeline of `extractApListDataFromScriptText`
(src/main.go:94-98): trim space, strip the `var apListData=` head and the
`;` tail, then rewrite `,\s*]` occurrences. -/
def cleanupScript (script : String) : List Char :=
  replCommaStep (stripSemiSuf (stripApListPre (trimSpaceL script.data))) none

/-- JSON values as decoded by `encoding/json` into `interface\x7b\x7d`.
Numbers keep their raw lexeme (the program never reads a numeric value, it
only type-asserts strings, so the `float64` conversion is irrelevant). -/
inductive JVal where
  | null
  | bool (b : Bool)
  | num (raw : List Char)
  | str (s : String)
  | arr (elems : List JVal)
  | obj (fields : List (String × JVal))

/-- JSON white space: space, tab, newline, carriage return. -/
def isJsonWs (c : Char) : Bool := c = ' ' || c = '\t' || c = '\n' || c = '\r'

def skipJsonWs (l : List Char) : List Char := l.dropWhile isJsonWs

def isDigitChar (c : Char) : Bool := '0' ≤ c && c ≤ '9'

def hexVal (c : Char) : Option Nat :=
  if '0' ≤ c ∧ c ≤ '9' then some (c.toNat - 48)
  else if 'a' ≤ c ∧ c ≤ 'f' then some (c.toNat - 87)
  else if 'A' ≤ c ∧ c ≤ 'F' then some (c.toNat - 55)
  else none

def parseHex4 : List Char → Option (Nat × List Char)
  | a :: b :: c :: d :: rest =>
    match hexVal a, hexVal b, hexVal c, hexVal d with
    | some x, some y, some z, some w => some ((((x * 16 + y) * 16 + z) * 16 + w), rest)
    | _, _, _, _ => none
  | _ => none

def jsonUnescape (e : Char) : Option Char :=
  if e = '"' then some '"'
  else if e = '\\' then some '\\'
  else if e = '/' then some '/'
  else if e = 'b' then some '\x08'
  else if e = 'f' then some '\x0c'
  else if e = 'n' then some '\n'
  else if e = 'r' then some '\r'
  else if e = 't' then some '\t'
  else none

/-- JSON string body (after the opening quote), per `encoding/json`'s
`unquoteBytes`: raw control characters are rejected and the standard escapes
are decoded.  A `\uXXXX` escape outside the surrogate range becomes that
code point; a surrogate is combined with an immediately following
`\uYYYY` low surrogate into one rune (`utf16.DecodeRune`), and otherwise
becomes U+FFFD without consuming what follows, exactly as Go does.  Fuelled
structural recursion; `fuel ≥ length` always suffices. -/
def parseStringBody : Nat → List Char → Option (List Char × List Char)
  | 0, _ => none
  | _ + 1, [] => none
  | fuel + 1, c :: rest =>
    if c = '"' then some ([], rest)
    else if c = '\\' then
      match rest with
      | [] => none
      | e :: rest2 =>
        if e = 'u' then
          match parseHex4 rest2 with
          | none => none
          | some (n, rest3) =>
            if n < 0xD800 ∨ 0xDFFF < n then
              match parseStringBody fuel rest3 with
              | some (s, r) => some (Char.ofNat n :: s, r)
              | none => none
            else
              match rest3 with
              | '\\' :: 'u' :: rest4 =>
                match parseHex4 rest4 with
                | some (m, rest5) =>
                  if n ≤ 0xDBFF ∧ 0xDC00 ≤ m ∧ m ≤ 0xDFFF then
                    match parseStringBody fuel rest5 with
                    | some (s, r) =>
                      some (Char.ofNat (0x10000 + (n - 0xD800) * 0x400 + (m - 0xDC00)) :: s, r)
                    | none => none
                  else
                    match parseStringBody fuel rest3 with
                    | some (s, r) => some (Char.ofNat 0xFFFD :: s, r)
                    | none => none
                | none =>
                  match parseStringBody fuel rest3 with
                  | some (s, r) => some (Char.ofNat 0xFFFD :: s, r)
                  | none => none
              | _ =>
                match parseStringBody fuel rest3 with
                | some (s, r) => some (Char.ofNat 0xFFFD :: s, r)
                | none => none
        else
          match jsonUnescape e with
          | none => none
          | some u =>
            match parseStringBody fuel rest2 with
            | some (s, r) => some (u :: s, r)
            | none => none
    else if c.toNat < 32 then none
    else
      match parseStringBody fuel rest with
      | some (s, r) => some (c :: s, r)
      | none => none

def lexInt : List Char → Option (List Char × List Char)
  | c :: t =>
    if c = '0' then some ([c], t)
    else if isDigitChar c then some (c :: t.takeWhile isDigitChar, t.dropWhile isDigitChar)
    else none
  | [] => none

def lexFrac : List Char → Option (List Char × List Char)
  | '.' :: r =>
    let ds := r.takeWhile isDigitChar
    if ds.isEmpty then none else some ('.' :: ds, r.dropWhile isDigitChar)
  | l => some ([], l)

def lexExp : List Char → Option (List Char × List Char)
  | c :: r =>
    if c = 'e' ∨ c = 'E' then
      match r with
      | s :: t =>
        if s = '+' ∨ s = '-' then
          (let ds := t.takeWhile isDigitChar
           if ds.isEmpty then none else some (c :: s :: ds, t.dropWhile isDigitChar))
        else
          (let ds := r.takeWhile isDigitChar
           if ds.isEmpty then none else some (c :: ds, r.dropWhile isDigitChar))
      | [] => none
    else some ([], c :: r)
  | [] => some ([], [])

/-- JSON number lexeme per RFC 8259: `-? (0 | [1-9][0-9]*) frac? exp?`. -/
def lexNumber (l : List Char) : Option (List Char × List Char) :=
  match
    (match l with
     | '-' :: t => some (['-'], t)
     | _ => some (([] : List Char), l)) with
  | none => none
  | some (sgn, l1) =>
    match lexInt l1 with
    | none => none
    | some (ip, r1) =>
      match lexFrac r1 with
      | none => none
      | some (fp, r2) =>
        match lexExp r2 with
        | none => none
        | some (ep, r3) => some (sgn ++ ip ++ fp ++ ep, r3)

def digitsVal (l : List Char) : Nat :=
  l.foldl (fun acc c => acc * 10 + (c.toNat - 48)) 0

/-- Decomposes a (well-formed) JSON number lexeme into its integer digits,
fraction digits and signed decimal exponent. -/
def numParts (l : List Char) : List Char × List Char × Int :=
  let l1 := match l with
    | '-' :: t => t
    | _ => l
  let ip := l1.takeWhile isDigitChar
  let r1 := l1.dropWhile isDigitChar
  let fpr : List Char × List Char := match r1 with
    | '.' :: t => (t.takeWhile isDigitChar, t.dropWhile isDigitChar)
    | _ => ([], r1)
  let e : Int := match fpr.2 with
    | _ :: t =>
      (match t with
       | '-' :: ds => -(digitsVal ds : Int)
       | '+' :: ds => (digitsVal ds : Int)
       | ds => (digitsVal ds : Int))
    | [] => 0
  (ip, fpr.1, e)

/-- Whether `strconv.ParseFloat(lexeme, 64)` — and hence `encoding/json`'s
conversion of this JSON number to `float64` — fails with a range error.  Go
errors exactly on overflow: the decimal magnitude reaches the rounding
midpoint `2^1024 - 2^970` above the largest finite float64 (ties-to-even
rounds that midpoint to +Inf); the bound below is written
`(2^97)^10 * (2^54 - 1)`, which equals it (see `float64Bound_eq`); extreme
underflow parses to 0 WITHOUT error.
The decimal-point position `dp` is screened first (Go's `dp > 310` /
`dp < -330` fast paths), so the exact integer comparison below only ever
multiplies numbers of bounded size. -/
def float64Overflow (l : List Char) : Bool :=
  let parts := numParts l
  let d := (parts.1 ++ parts.2.1).dropWhile (fun c => c == '0')
  if d.isEmpty then false
  else
    let k : Int := parts.2.2 - (parts.2.1.length : Int)
    let dp : Int := (d.length : Int) + k
    if dp > 310 then true
    else if dp < -330 then false
    else
      let n := digitsVal d
      let bound : Nat := (2 ^ 97) ^ 10 * (2 ^ 54 - 1)
      if 0 ≤ k then decide (bound ≤ n * 10 ^ k.toNat)
      else decide (bound * 10 ^ (-k).toNat ≤ n)

theorem float64Bound_eq : ((2 ^ 97) ^ 10 * (2 ^ 54 - 1) : Nat) = 2 ^ 1024 - 2 ^ 970 := by
  decide

mutual
/-- JSON value parser modelling `encoding/json` for the fragment the program
uses (strict: no trailing commas).  Fuelled; each call consumes fuel, and
`2 * length + 8` fuel always suffices for an input of that length.  A number
is converted to `float64` at decode time when the target is
`interface\x7b\x7d` (as it is everywhere under `[][]interface\x7b\x7d`), so
the range check happens here: an overflowing numeral anywhere makes
`json.Unmarshal` fail.  The numeric VALUE is kept as the raw lexeme, which
is harmless because the program never reads a number, it only
type-asserts strings. -/
def parseVal : Nat → List Char → Option (JVal × List Char)
  | 0, _ => none
  | fuel + 1, l =>
    match skipJsonWs l with
    | [] => none
    | c :: rest =>
      if c = 'n' then
        match rest with
        | 'u' :: 'l' :: 'l' :: r => some (JVal.null, r)
        | _ => none
      else if c = 't' then
        match rest with
        | 'r' :: 'u' :: 'e' :: r => some (JVal.bool true, r)
        | _ => none
      else if c = 'f' then
        match rest with
        | 'a' :: 'l' :: 's' :: 'e' :: r => some (JVal.bool false, r)
        | _ => none
      else if c = '"' then
        match parseStringBody (fuel + 1) rest with
        | some (s, r) => some (JVal.str (String.mk s), r)
        | none => none
      else if c = '[' then
        match skipJsonWs rest with
        | ']' :: r => some (JVal.arr [], r)
        | r2 =>
          match parseArrElems fuel r2 with
          | some (es, r) => some (JVal.arr es, r)
          | none => none
      else if c = '\x7b' then
        match skipJsonWs rest with
        | '\x7d' :: r => some (JVal.obj [], r)
        | r2 =>
          match parseObjFields fuel r2 with
          | some (fs, r) => some (JVal.obj fs, r)
          | none => none
      else
        match lexNumber (c :: rest) with
        | some (raw, r) => if float64Overflow raw then none else some (JVal.num raw, r)
        | none => none

def parseArrElems : Nat → List Char → Option (List JVal × List Char)
  | 0, _ => none
  | fuel + 1, l =>
    match parseVal fuel l with
    | none => none
    | some (v, r) =>
      match skipJsonWs r with
      | ',' :: r2 =>
        match parseArrElems fuel r2 with
        | some (vs, r3) => some (v :: vs, r3)
        | none => none
      | ']' :: r2 => some ([v], r2)
      | _ => none

def parseObjFields : Nat → List Char → Option (List (String × JVal) × List Char)
  | 0, _ => none
  | fuel + 1, l =>
    match skipJsonWs l with
    | '"' :: r =>
      match parseStringBody (fuel + 1) r with
      | none => none
      | some (k, r1) =>
        match skipJsonWs r1 with
        | ':' :: r2 =>
          match parseVal fuel r2 with
          | none => none
          | some (v, r3) =>
            match skipJsonWs r3 with
            | ',' :: r4 =>
              match parseObjFields fuel r4 with
              | some (fs, r5) => some ((String.mk k, v) :: fs, r5)
              | none => none
            | '\x7d' :: r4 => some ([(String.mk k, v)], r4)
            | _ => none
        | _ => none
    | _ => none
end

/-- `json.Unmarshal` top level: parse one value and reject trailing
non-white-space (Go: "invalid character ... after top-level value").  The
individual Go error messages are collapsed into fixed strings; the program
only ever tests the error for nil-ness. -/
def jsonParse (l : List Char) : Except String JVal :=
  match parseVal (2 * l.length + 8) l with
  | none => Except.error ("invalid JSON")
  | some (v, r) =>
    if (skipJsonWs r).isEmpty then Except.ok v
    else Except.error ("invalid character after top-level value")

/-- Decoding one outer element into `[]interface\x7b\x7d`: JSON `null`
becomes a nil slice, an array becomes its elements, anything else is an
unmarshal type error. -/
def jvalToRow : JVal → Except String (List JVal)
  | JVal.null => Except.ok []
  | JVal.arr xs => Except.ok xs
  | _ => Except.error ("json: cannot unmarshal value into Go value of type []interface \x7b\x7d")

/-- Decoding the top value into `[][]interface\x7b\x7d`. -/
def jvalToRows : JVal → Except String (List (List JVal))
  | JVal.null => Except.ok []
  | JVal.arr xs => xs.mapM jvalToRow
  | _ => Except.error ("json: cannot unmarshal value into Go value of type [][]interface \x7b\x7d")

/-- `json.Unmarshal(dataString, &data)` with `data : [][]interface\x7b\x7d`
(src/main.go:93-103). -/
def unmarshalArrArr (l : List Char) : Except String (List (List JVal)) :=
  match jsonParse l with
  | Except.error e => Except.error e
  | Except.ok v => jvalToRows v

/-- `extractNumber.FindString` (src/main.go:89,109): the leftmost match of
`[0-9]+`, or the empty string when there is none. -/
def findFirstDigitRun (l : List Char) : List Char :=
  (l.dropWhile (fun c => !(isDigitChar c))).takeWhile isDigitChar

/-- Models `strconv.Atoi` on the inputs it receives here (output of
`findFirstDigitRun`, i.e. `""` or a digit run): empty or non-digit input is
a syntax error, a value beyond int64 is a range error.  (Go also accepts a
leading sign, which `FindString` of `[0-9]+` can never produce.) -/
def goAtoi (l : List Char) : Except String Int :=
  if l.isEmpty then Except.error ("strconv.Atoi: invalid syntax")
  else if l.all isDigitChar then
    if digitsVal l ≤ 9223372036854775807 then Except.ok (digitsVal l)
    else Except.error ("strconv.Atoi: value out of range")
  else Except.error ("strconv.Atoi: invalid syntax")

/-- `apData[i].(string)` (src/main.go:107,109,117): an out-of-range index is
a runtime panic, a non-string value makes the unchecked type assertion
panic. -/
def indexAssertString (row : List JVal) (i : Nat) : GoRes String :=
  match row.get? i with
  | none => GoRes.panicked ("runtime error: index out of range")
  | some (JVal.str s) => GoRes.ok s
  | some _ => GoRes.panicked ("interface conversion: interface \x7b\x7d is not string")

/-- The body of the extraction loop for one inner array
(src/main.go:106-119), in Go evaluation order: index 7 (assert string),
index 10 (assert string, then find digit run, then Atoi — an Atoi failure
RETURNS an error before index 13 is ever touched), index 13 (assert
string). -/
def processRow (row : List JVal) : GoRes AccessPointReadFromControllerGUI :=
  match indexAssertString row 7 with
  | GoRes.panicked m => GoRes.panicked m
  | GoRes.err m => GoRes.err m
  | GoRes.ok hostName =>
    match indexAssertString row 10 with
    | GoRes.panicked m => GoRes.panicked m
    | GoRes.err m => GoRes.err m
    | GoRes.ok s10 =>
      match goAtoi (findFirstDigitRun s10.data) with
      | Except.error e => GoRes.err e
      | Except.ok activeConnections =>
        match indexAssertString row 13 with
        | GoRes.panicked m => GoRes.panicked m
        | GoRes.err m => GoRes.err m
        | GoRes.ok ip => GoRes.ok ⟨hostName, activeConnections, ip⟩

/-- The extraction loop over all inner arrays (src/main.go:105-119); the
first panic or returned error aborts the whole call. -/
def extractRows : List (List JVal) → GoRes (List AccessPointReadFromControllerGUI)
  | [] => GoRes.ok []
  | row :: rest =>
    match processRow row with
    | GoRes.panicked m => GoRes.panicked m
    | GoRes.err m => GoRes.err m
    | GoRes.ok ap =>
      match extractRows rest with
      | GoRes.ok aps => GoRes.ok (ap :: aps)
      | GoRes.err m => GoRes.err m
      | GoRes.panicked m => GoRes.panicked m

/-- Embeds `extractApListDataFromScriptText` (src/main.go:92-122): cleanup,
unmarshal, then the positional extraction loop. -/
def extractApListDataFromScriptText (script : String) :
    GoRes (List AccessPointReadFromControllerGUI) :=
  match unmarshalArrArr (cleanupScript script) with
  | Except.error e => GoRes.err e
  | Except.ok rows => extractRows rows

/-- Index `i` exists and holds a JSON string. -/
def isStrAt (row : List JVal) (i : Nat) : Bool :=
  match row.get? i with
  | some (JVal.str _) => true
  | _ => false

/-- An inner array violating the claim's precondition: the value at index 7
or at index 13 is absent or not a string. -/
def rowBadB (row : List JVal) : Bool :=
  !(isStrAt row 7 && isStrAt row 13)

theorem isStrAt_iff (row : List JVal) (i : Nat) :
    isStrAt row i = true ↔ ∃ s, row.get? i = some (JVal.str s) := by
  unfold isStrAt
  split <;> simp_all

theorem indexAssertString_str (row : List JVal) (i : Nat) (s : String)
    (h : row.get? i = some (JVal.str s)) : indexAssertString row i = GoRes.ok s := by
  unfold indexAssertString
  rw [h]

theorem indexAssertString_not_str (row : List JVal) (i : Nat) (h : isStrAt row i = false) :
    ∃ m, indexAssertString row i = GoRes.panicked m := by
  unfold indexAssertString
  rcases hq : row.get? i with _ | v
  · exact ⟨_, rfl⟩
  · cases v with
    | str s =>
      rw [(isStrAt_iff row i).mpr ⟨s, hq⟩] at h
      cases h
    | null => exact ⟨_, rfl⟩
    | bool b => exact ⟨_, rfl⟩
    | num raw => exact ⟨_, rfl⟩
    | arr es => exact ⟨_, rfl⟩
    | obj fs => exact ⟨_, rfl⟩

theorem processRow_bad (row : List JVal) (h : rowBadB row = true) :
    (processRow row).isOk = false := by
  unfold rowBadB at h
  cases h7 : isStrAt row 7 with
  | false =>
    obtain ⟨m, hm⟩ := indexAssertString_not_str row 7 h7
    unfold processRow
    simp only [hm]
    rfl
  | true =>
    cases h13 : isStrAt row 13 with
    | false =>
      obtain ⟨m13, hm13⟩ := indexAssertString_not_str row 13 h13
      obtain ⟨s7, heq7⟩ := (isStrAt_iff row 7).mp h7
      unfold processRow
      simp only [indexAssertString_str row 7 s7 heq7]
      rcases h10 : indexAssertString row 10 with s10 | m | m
      · simp only [h10]
        rcases hA : goAtoi (findFirstDigitRun s10.data) with e | n
        · simp only [hA]
          rfl
        · simp only [hA, hm13]
          rfl
      · simp only [h10]
        rfl
      · simp only [h10]
        rfl
    | true =>
      rw [h7, h13] at h
      simp at h

theorem extractRows_not_ok (rows : List (List JVal))
    (h : ∃ row ∈ rows, rowBadB row = true) :
    (extractRows rows).isOk = false := by
  induction rows with
  | nil =>
    obtain ⟨row, hmem, _⟩ := h
    cases hmem
  | cons r rest ih =>
    obtain ⟨row, hmem, hbad⟩ := h
    unfold extractRows
    rcases List.mem_cons.mp hmem with heq | hmem'
    · subst heq
      have hb := processRow_bad row hbad
      rcases hp : processRow row with ap | m | m
      · rw [hp] at hb
        simp [GoRes.isOk] at hb
      · simp only [hp]
        rfl
      · simp only [hp]
        rfl
    · have hrest := ih ⟨row, hmem', hbad⟩
      rcases hp : processRow r with ap | m | m
      · simp only [hp]
        rcases he : extractRows rest with aps | m | m
        · rw [he] at hrest
          simp [GoRes.isOk] at hrest
        · simp only [he]
          rfl
        · simp only [he]
          rfl
      · simp only [hp]
        rfl
      · simp only [hp]
        rfl

/-- Concrete inventory payloads used by the C3/C5 theorems. -/
def script3cex : String := "var apListData=[[0,1,2,3,4,5,6,7,8,9,10,11,12,13]];"

def script3w : String := "var apListData=[[\"a\"]];"

def rows5cex : List (List JVal) :=
  [[JVal.num ['0'], JVal.num ['1'], JVal.num ['2'], JVal.num ['3'], JVal.num ['4'],
    JVal.num ['5'], JVal.num ['6'], JVal.num ['7'], JVal.num ['8'], JVal.num ['9'],
    JVal.num ['1', '0'], JVal.num ['1', '1'], JVal.num ['1', '2'], JVal.num ['1', '3']]]

/-- C3 counterexample: a parsed inventory payload whose inner array holds a
number (not a string) at index 7 makes `extractApListDataFromScriptText`
PANIC on the unchecked type assertion `apData[7].(string)`
(src/main.go:107); it does not return an extraction error. -/
theorem C3_wrong_type_panics_counterexample :
    extractApListDataFromScriptText script3cex =
      GoRes.panicked ("interface conversion: interface \x7b\x7d is not string") ∧
    (extractApListDataFromScriptText script3cex).isReturnedErr = false :=
  ⟨rfl, rfl⟩

/-- C3 (amended): for every parsed inventory payload in which some inner
array has a missing or non-string value at index 7 or 13, the whole call
fails — by a runtime panic (index out of range / failed type assertion), or
by a returned error when the index-10 `Atoi` step fails first — and never
produces a (partial or garbage) summary list. -/
theorem C3_bad_index_never_yields_summaries (script : String) (rows : List (List JVal))
    (hrows : unmarshalArrArr (cleanupScript script) = Except.ok rows)
    (hbad : ∃ row ∈ rows, rowBadB row = true) :
    (extractApListDataFromScriptText script).isOk = false := by
  unfold extractApListDataFromScriptText
  rw [hrows]
  exact extractRows_not_ok rows hbad

theorem C3_bad_index_never_yields_summaries_witness :
    unmarshalArrArr (cleanupScript script3w) = Except.ok [[JVal.str ("a")]] ∧
    (∃ row ∈ [[JVal.str ("a")]], rowBadB row = true) ∧
    (extractApListDataFromScriptText script3w).isOk = false :=
  ⟨rfl, by decide, C3_bad_index_never_yields_summaries script3w [[JVal.str ("a")]] rfl (by decide)⟩

theorem dropWhile_head_not (p : Char → Bool) (l : List Char)
    (h : ∀ c', l.head? = some c' → p c' = false) : l.dropWhile p = l := by
  cases l with
  | nil => rfl
  | cons a t => simp [List.dropWhile_cons, h a rfl]

theorem trimSpaceL_eq_self (l : List Char)
    (h1 : ∀ c', l.head? = some c' → isGoSpace c' = false)
    (h2 : ∀ c', l.getLast? = some c' → isGoSpace c' = false) :
    trimSpaceL l = l := by
  unfold trimSpaceL
  rw [dropWhile_head_not _ _ h1]
  rw [dropWhile_head_not _ _ (fun c' hc' => h2 c' (by rwa [List.head?_reverse] at hc'))]
  exact List.reverse_reverse l

theorem startsWithL_self_append (p r : List Char) : startsWithL p (p ++ r) = true := by
  induction p with
  | nil => rfl
  | cons a t ih => simp [startsWithL, ih]

theorem stripApListPre_append (r : List Char) :
    stripApListPre (apListPreChars ++ r) = r := by
  unfold stripApListPre
  rw [startsWithL_self_append]
  simp [List.drop_left]

theorem stripSemiSuf_concat (y : List Char) :
    stripSemiSuf (y ++ [';']) = y := by
  unfold stripSemiSuf
  rw [List.getLast?_concat]
  simp [List.dropLast_concat]

theorem cleanupScript_wrapped (body : List Char) :
    cleanupScript (String.mk (apListPreChars ++ (body ++ [';']))) = replCommaStep body none := by
  have h1 : ∀ c', (apListPreChars ++ (body ++ [';'])).head? = some c' → isGoSpace c' = false := by
    intro c' hc'
    rw [show (apListPreChars ++ (body ++ [';'])).head? = some 'v' from rfl] at hc'
    rw [← Option.some.inj hc']
    decide
  have h2 : ∀ c', (apListPreChars ++ (body ++ [';'])).getLast? = some c' → isGoSpace c' = false := by
    intro c' hc'
    rw [← List.append_assoc, List.getLast?_concat] at hc'
    rw [← Option.some.inj hc']
    decide
  unfold cleanupScript
  rw [show (String.mk (apListPreChars ++ (body ++ [';']))).data =
      apListPreChars ++ (body ++ [';']) from rfl]
  rw [trimSpaceL_eq_self _ h1 h2, stripApListPre_append, stripSemiSuf_concat]

theorem replCommaStep_insert_comma (c : Char) (hws : isGoRegexWs c = false) (hc : c ≠ ',') :
    ∀ (u : List Char) (st : Option (List Char)),
      replCommaStep (u ++ [c, ',', ']']) st = replCommaStep (u ++ [c, ']']) st := by
  intro u
  induction u with
  | nil =>
    intro st
    cases st with
    | none => simp [replCommaStep, hc]
    | some ws =>
      by_cases hcb : c = ']'
      · subst hcb
        simp [replCommaStep]
      · simp [replCommaStep, hcb, hws, hc]
  | cons d u' ih =>
    intro st
    cases st with
    | none =>
      by_cases hd : d = ','
      · subst hd
        simp [replCommaStep, List.append_eq, ih]
      · simp [replCommaStep, List.append_eq, hd, ih]
    | some ws =>
      by_cases hd1 : d = ']'
      · subst hd1
        simp [replCommaStep, List.append_eq, ih]
      · by_cases hd2 : isGoRegexWs d = true
        · simp [replCommaStep, List.append_eq, hd1, hd2, ih]
        · by_cases hd3 : d = ','
          · subst hd3
            simp [replCommaStep, List.append_eq, hd2, ih]
          · simp [replCommaStep, List.append_eq, hd1, hd2, hd3, ih]

/-- Concrete payloads for the C6 counterexample. -/
def script6without : String :=
  "var apListData=[[\"0\",\"1\",\"2\",\"3\",\"4\",\"5\",\"6\",\"h\",\"8\",\"9\",\"1/100\",\"11\",\"12\",\"ip\"],\n];"

def script6with : String :=
  "var apListData=[[\"0\",\"1\",\"2\",\"3\",\"4\",\"5\",\"6\",\"h\",\"8\",\"9\",\"1/100\",\"11\",\"12\",\"ip\"],\n,];"

def script6inner : String := "var apListData=[[\"a\",],];"

/-- C6 counterexample.  Two refutations:
(1) `script6without` ends in `...],\n];` (an existing trailing comma
separated from the bracket by white space); inserting one more trailing
comma immediately before the final bracket (`script6with`) CHANGES the
extraction result: the regexp consumes `,\n]` in the first payload but in the
second it consumes only the inserted `,]`, leaving `...],\n]` which is
malformed JSON, so extraction succeeds on one and errors on the other.
(2) on `script6inner` (`[["a",],]` after stripping) the cleanup rewrites the
INNER trailing comma as well, producing `[["a"]]` rather than the `[["a",]]`
that rewriting only the final trailing comma would give — the `,\s*]`
replacement is global, not anchored to the last bracket. -/
theorem C6_trailing_comma_counterexample :
    extractApListDataFromScriptText script6without = GoRes.ok [⟨"h", 1, "ip"⟩] ∧
    extractApListDataFromScriptText script6with = GoRes.err ("invalid JSON") ∧
    cleanupScript script6inner = ("[[\"a\"]]").data ∧
    ("[[\"a\"]]").data ≠ ("[[\"a\",]]").data :=
  ⟨rfl, rfl, rfl, by decide⟩

/-- C6 (amended): the cleanup rewrites EVERY occurrence of
comma-whitespace-bracket (`,\s*]`) in the payload, not only a final trailing
comma; nevertheless, for every payload whose final `]` is immediately
preceded by a character that is neither white space nor a comma, inserting a
trailing comma immediately before that final `]` leaves the extraction
result unchanged. -/
theorem C6_trailing_comma_insertion (u : List Char) (c : Char)
    (hws : isGoRegexWs c = false) (hc : c ≠ ',') :
    extractApListDataFromScriptText
        (String.mk (apListPreChars ++ ((u ++ [c] ++ [',', ']']) ++ [';']))) =
      extractApListDataFromScriptText
        (String.mk (apListPreChars ++ ((u ++ [c] ++ [']']) ++ [';']))) := by
  unfold extractApListDataFromScriptText
  rw [cleanupScript_wrapped, cleanupScript_wrapped,
    show u ++ [c] ++ ([',', ']'] : List Char) = u ++ [c, ',', ']'] by simp,
    show u ++ [c] ++ ([']'] : List Char) = u ++ [c, ']'] by simp,
    replCommaStep_insert_comma c hws hc u none]

theorem C6_trailing_comma_insertion_witness :
    isGoRegexWs '[' = false ∧ ('[' : Char) ≠ ',' ∧
    extractApListDataFromScriptText
        (String.mk (apListPreChars ++ (([] ++ ['['] ++ [',', ']']) ++ [';']))) =
      extractApListDataFromScriptText
        (String.mk (apListPreChars ++ (([] ++ ['['] ++ [']']) ++ [';']))) :=
  ⟨by decide, by decide, C6_trailing_comma_insertion [] '[' (by decide) (by decide)⟩

/-- Node types of `golang.org/x/net/html`. -/
inductive GoNodeType where
  | errorNode
  | textNode
  | documentNode
  | elementNode
  | commentNode
  | doctypeNode
deriving DecidableEq

/-- An `html.Node` in exactly the child/sibling linked shape of the Go
struct: `firstChild` heads the child list and `nextSibling` continues the
sibling chain; `nil` pointers become the `nil` constructor. -/
inductive HtmlNode where
  | nil
  | node (ty : GoNodeType) (data : String) (firstChild : HtmlNode) (nextSibling : HtmlNode)
deriving DecidableEq

/-- Models `strings.Contains(hay, pat)` (true at any position, and for the
empty pattern). -/
def containsSubL (pat : List Char) : List Char → Bool
  | [] => pat.isEmpty
  | c :: rest => startsWithL pat (c :: rest) || containsSubL pat rest

/-- The literal `"var apListData=["` searched for in script bodies
(src/main.go:75). -/
def apListLit : List Char := ("var apListData=[").data

/-- `Data` of a node, `""` for nil (only read where a child is known to
exist). -/
def firstChildData : HtmlNode → String
  | HtmlNode.node _ d _ _ => d
  | HtmlNode.nil => ""

/-- The condition of src/main.go:74-75 on a node with fields
`(ty, data, firstChild)`: an element named `script` with a non-nil first
child whose `Data` contains `var apListData=[`. -/
def nodeMatchesApList (ty : GoNodeType) (data : String) (fc : HtmlNode) : Bool :=
  (ty == GoNodeType.elementNode) && (data == "script") &&
    (match fc with
     | HtmlNode.node _ cd _ _ => containsSubL apListLit cd.data
     | HtmlNode.nil => false)

mutual
/-- Embeds `findScriptContainingApListData` (src/main.go:73-87): check the
node itself (src/main.go:74-78, returning `&n.FirstChild.Data`), then walk
the children in document order (src/main.go:80-84), returning the first hit.
The function never looks at its argument's own `nextSibling`. -/
def findScriptContainingApListData : HtmlNode → Option String
  | HtmlNode.nil => none
  | HtmlNode.node ty data fc _ =>
    if nodeMatchesApList ty data fc then some (firstChildData fc)
    else findScriptChain fc

/-- The loop `for child := n.FirstChild; child != nil; child = child.NextSibling`
(src/main.go:80-84): the full search applied to each node of a sibling chain
in order (the node check is written inline so that the recursion is
structural; `findScript_node_eq` states it equals the search on that
node). -/
def findScriptChain : HtmlNode → Option String
  | HtmlNode.nil => none
  | HtmlNode.node ty data fc ns =>
    match (if nodeMatchesApList ty data fc then some (firstChildData fc)
           else findScriptChain fc) with
    | some s => some s
    | none => findScriptChain ns
end

theorem findScript_node_eq (ty : GoNodeType) (data : String) (fc ns : HtmlNode) :
    findScriptContainingApListData (HtmlNode.node ty data fc ns) =
      if nodeMatchesApList ty data fc then some (firstChildData fc) else findScriptChain fc :=
  rfl

mutual
/-- Modelled from the spec (§4.2): the depth-first, pre-order node list of
the subtree rooted at a node — the node itself before its children, children
in document order; siblings of the root are not included. -/
def preorderSubtree : HtmlNode → List HtmlNode
  | HtmlNode.nil => []
  | HtmlNode.node ty data fc ns => HtmlNode.node ty data fc ns :: preorderChain fc

/-- Pre-order node lists of the subtrees of a sibling chain, concatenated in
document order. -/
def preorderChain : HtmlNode → List HtmlNode
  | HtmlNode.nil => []
  | HtmlNode.node ty data fc ns =>
    HtmlNode.node ty data fc ns :: (preorderChain fc ++ preorderChain ns)
end

/-- The spec's predicate (§4.2a) on a node value. -/
def apListPred : HtmlNode → Bool
  | HtmlNode.nil => false
  | HtmlNode.node ty data fc _ => nodeMatchesApList ty data fc

/-- What src/main.go:76 returns for a matching node: its first child's
`Data`. -/
def matchResult (m : HtmlNode) : String :=
  match m with
  | HtmlNode.node _ _ fc _ => firstChildData fc
  | HtmlNode.nil => ""

theorem find?_append_opt {α : Type} (p : α → Bool) (l₁ l₂ : List α) :
    (l₁ ++ l₂).find? p = ((l₁.find? p).orElse (fun _ => l₂.find? p)) := by
  induction l₁ with
  | nil => simp
  | cons a t ih =>
    by_cases h : p a = true
    · simp [List.find?_cons_of_pos, h]
    · simp only [List.cons_append, List.find?_cons_of_neg _ (by simpa using h), ih]

theorem findScript_chain_spec : ∀ n : HtmlNode,
    (findScriptContainingApListData n =
      ((preorderSubtree n).find? apListPred).map matchResult) ∧
    (findScriptChain n = ((preorderChain n).find? apListPred).map matchResult) := by
  intro n
  induction n with
  | nil => exact ⟨rfl, rfl⟩
  | node ty data fc ns ihfc ihns =>
    have hpred : apListPred (HtmlNode.node ty data fc ns) = nodeMatchesApList ty data fc := rfl
    by_cases hm : nodeMatchesApList ty data fc = true
    · have hp : apListPred (HtmlNode.node ty data fc ns) = true := by rw [hpred]; exact hm
      constructor
      · rw [show preorderSubtree (HtmlNode.node ty data fc ns) =
              HtmlNode.node ty data fc ns :: preorderChain fc from rfl,
            List.find?_cons_of_pos _ hp]
        simp [findScriptContainingApListData, hm, matchResult]
      · rw [show preorderChain (HtmlNode.node ty data fc ns) =
              HtmlNode.node ty data fc ns :: (preorderChain fc ++ preorderChain ns) from rfl,
            List.find?_cons_of_pos _ hp]
        simp [findScriptChain, hm, matchResult]
    · have hpneg : ¬ apListPred (HtmlNode.node ty data fc ns) = true := by
        rw [hpred]
        simpa using hm
      constructor
      · rw [show preorderSubtree (HtmlNode.node ty data fc ns) =
              HtmlNode.node ty data fc ns :: preorderChain fc from rfl,
            List.find?_cons_of_neg _ hpneg]
        simp only [findScriptContainingApListData, if_neg hm]
        exact ihfc.2
      · rw [show preorderChain (HtmlNode.node ty data fc ns) =
              HtmlNode.node ty data fc ns :: (preorderChain fc ++ preorderChain ns) from rfl,
            List.find?_cons_of_neg _ hpneg, find?_append_opt]
        simp only [findScriptChain, if_neg hm]
        rcases hfc : (preorderChain fc).find? apListPred with _ | m
        · have h1 : findScriptChain fc = none := by rw [ihfc.2, hfc]; rfl
          rw [h1]
          exact ihns.2
        · have h1 : findScriptChain fc = some (matchResult m) := by rw [ihfc.2, hfc]; rfl
          rw [h1]
          rfl

/-- C9: `findScriptContainingApListData` performs a depth-first pre-order
search — its result is exactly the first node of the pre-order node list
satisfying the apListData predicate (whose text, the first child's `Data`,
is what the Go function returns a pointer to), and it returns `none` exactly
when no node of the whole tree matches. -/
theorem C9_find_script_preorder (n : HtmlNode) :
    findScriptContainingApListData n =
      ((preorderSubtree n).find? apListPred).map matchResult ∧
    (findScriptContainingApListData n = none ↔
      ∀ m ∈ preorderSubtree n, apListPred m = false) := by
  have h := findScript_chain_spec n
  refine ⟨h.1, ?_⟩
  rw [h.1]
  constructor
  · intro hmap m hm
    have hnone : (preorderSubtree n).find? apListPred = none := by
      rcases hq : (preorderSubtree n).find? apListPred with _ | m'
      · rfl
      · rw [hq] at hmap
        cases hmap
    have := List.find?_eq_none.mp hnone m hm
    simpa using this
  · intro hall
    rw [List.find?_eq_none.mpr (fun x hx => by simp [hall x hx])]
    rfl

/-- One decimal digit, as produced by `fmt.Sprintf` with `%d`. -/
def digitChar (n : Nat) : Char :=
  if n = 0 then '0' else if n = 1 then '1' else if n = 2 then '2' else if n = 3 then '3'
  else if n = 4 then '4' else if n = 5 then '5' else if n = 6 then '6' else if n = 7 then '7'
  else if n = 8 then '8' else '9'

/-- Decimal digits of a natural number, most significant first (fuelled;
`fuel ≥ 1 + n` always suffices since `n` shrinks by a factor 10 each step). -/
def natChars : Nat → Nat → List Char → List Char
  | 0, _, acc => acc
  | fuel + 1, n, acc =>
    if n < 10 then digitChar n :: acc else natChars fuel (n / 10) (digitChar (n % 10) :: acc)

/-- Models `fmt.Sprintf` `%d` on a Go `int`. -/
def goItoa (n : Int) : List Char :=
  if n < 0 then '-' :: natChars ((-n).toNat + 1) (-n).toNat []
  else natChars (n.toNat + 1) n.toNat []

/-- The bytes written for one AP by the loop of `metrics`
(src/main.go:225-232): `fmt.Sprintf("ap_active_connections{hostname=\"%s\"} %d\n",
ap.HostName, ap.ActiveConnections)`.  Go field promotion resolves
`ap.HostName` and `ap.ActiveConnections` to the embedded
`AccessPointReadFromControllerGUI` (the controller-side count), not to the
per-band detail struct. -/
def metricsLineChars (ap : ReconstructedApData) : List Char :=
  ("ap_active_connections\x7bhostname=\"").data ++ ap.summary.hostName.data ++
    ("\"\x7d ").data ++ goItoa ap.summary.activeConnections ++ ['\n']

/-- The full response body written by the loop of `metrics`
(src/main.go:225-232): the concatenation of the per-AP writes, in list
order. -/
def metricsBody : List ReconstructedApData → List Char
  | [] => []
  | ap :: rest => metricsLineChars ap ++ metricsBody rest

/-- HTTP response produced by a handler: `200 text/plain` with a body, or
`500` via `http.Error`. -/
inductive HttpResponse where
  | okText (body : List Char)
  | internalError (msg : String)
deriving DecidableEq

/-- Embeds the `metrics` handler (src/main.go:214-233) as a function of the
outcome of `reconstructAllApData`: an error writes a 500, a result writes the
concatenated metric lines; if the reconstruction blocks or panics no response
is ever produced (`none`).  Write errors on the socket (src/main.go:227-231)
are not modelled. -/
def metrics : RunOutcome (List ReconstructedApData) → Option HttpResponse
  | RunOutcome.ok aps => some (HttpResponse.okText (metricsBody aps))
  | RunOutcome.err e => some (HttpResponse.internalError e)
  | RunOutcome.blocked => none
  | RunOutcome.panicked _ => none

/-- One step of splitting a character list at newline separators. -/
def splitNlStep (c : Char) (acc : List (List Char)) : List (List Char) :=
  if c = '\n' then [] :: acc
  else
    match acc with
    | [] => [[c]]
    | a :: rest => (c :: a) :: rest

/-- Splits a character list at `'\n'` separators ("ab\ncd\n" becomes
["ab", "cd", ""]). -/
def splitNl (l : List Char) : List (List Char) :=
  l.foldr splitNlStep [[]]

theorem foldr_splitNlStep_no_newline (a : List Char) (h : List Char) (t : List (List Char))
    (ha : ∀ c ∈ a, c ≠ '\n') :
    List.foldr splitNlStep (h :: t) a = (a ++ h) :: t := by
  induction a with
  | nil => rfl
  | cons c a' ih =>
    have hc : c ≠ '\n' := ha c (List.mem_cons_self c a')
    have ih' := ih (fun x hx => ha x (List.mem_cons_of_mem c hx))
    simp [List.foldr_cons, ih', splitNlStep, hc]

theorem splitNl_line (a : List Char) (rest : List Char) (ha : ∀ c ∈ a, c ≠ '\n') :
    splitNl (a ++ '\n' :: rest) = a :: splitNl rest := by
  unfold splitNl
  rw [show a ++ '\n' :: rest = a ++ ('\n' :: rest) from rfl, List.foldr_append]
  have h1 : List.foldr splitNlStep [[]] ('\n' :: rest) = [] :: List.foldr splitNlStep [[]] rest := by
    simp [List.foldr_cons, splitNlStep]
  rw [h1, foldr_splitNlStep_no_newline a [] _ ha, List.append_nil]

theorem digitChar_ne_newline (n : Nat) : digitChar n ≠ '\n' := by
  unfold digitChar
  repeat' split
  all_goals decide

theorem natChars_ne_newline (fuel : Nat) :
    ∀ (n : Nat) (acc : List Char), (∀ c ∈ acc, c ≠ '\n') →
      ∀ c ∈ natChars fuel n acc, c ≠ '\n' := by
  induction fuel with
  | zero => intro n acc hacc c hc; exact hacc c hc
  | succ m ih =>
    intro n acc hacc c hc
    unfold natChars at hc
    split at hc
    · rcases List.mem_cons.mp hc with h | h
      · rw [h]; exact digitChar_ne_newline n
      · exact hacc c h
    · refine ih (n / 10) (digitChar (n % 10) :: acc) ?_ c hc
      intro x hx
      rcases List.mem_cons.mp hx with h | h
      · rw [h]; exact digitChar_ne_newline (n % 10)
      · exact hacc x h

theorem goItoa_ne_newline (n : Int) : ∀ c ∈ goItoa n, c ≠ '\n' := by
  intro c hc
  unfold goItoa at hc
  split at hc
  · rcases List.mem_cons.mp hc with h | h
    · rw [h]; decide
    · exact natChars_ne_newline _ _ [] (by intro x hx; cases hx) c h
  · exact natChars_ne_newline _ _ [] (by intro x hx; cases hx) c hc

/-- C4 counterexample: for the reconstructed AP with hostname "ap-01",
controller-side count 10 and (stub) band counts 0/0, the body written by the
`metrics` handler is the single unlabeled line
`ap_active_connections{hostname="ap-01"} 10` — fed by the controller-side
`ActiveConnections` — and not the two frequency-labeled per-band lines the
claim describes. -/
theorem C4_metrics_counterexample :
    metricsBody [⟨apA, ⟨0, 0⟩⟩] = ("ap_active_connections\x7bhostname=\"ap-01\"\x7d 10\n").data ∧
    ("ap_active_connections\x7bhostname=\"ap-01\"\x7d 10\n").data ≠
      ("ap_active_connections\x7bhostname=\"ap-01\",frequency=\"2.4GHz\"\x7d 0\nap_active_connections\x7bhostname=\"ap-01\",frequency=\"5GHz\"\x7d 0\n").data := by
  exact ⟨rfl, by decide⟩

/-- C4 (amended): for every successfully reconstructed AP list, the `/metrics`
handler answers `200 text/plain` and writes exactly ONE line per AP (not one
per (AP, band) pair), of the form
`ap_active_connections{hostname="<hostname>"} <n>` with `<n>` the
controller-reported `ActiveConnections` of that AP; there is no `frequency`
label and the per-band detail counts are not written at all. -/
theorem C4_metrics_one_line_per_ap (aps : List ReconstructedApData)
    (hh : ∀ ap ∈ aps, ∀ c ∈ ap.summary.hostName.data, c ≠ '\n') :
    metrics (RunOutcome.ok aps) = some (HttpResponse.okText (metricsBody aps)) ∧
    splitNl (metricsBody aps) =
      aps.map (fun ap =>
        ("ap_active_connections\x7bhostname=\"").data ++ ap.summary.hostName.data ++
          ("\"\x7d ").data ++ goItoa ap.summary.activeConnections) ++ [[]] := by
  refine ⟨rfl, ?_⟩
  induction aps with
  | nil => rfl
  | cons ap rest ih =>
    have hline : ∀ c ∈ ("ap_active_connections\x7bhostname=\"").data ++
        ap.summary.hostName.data ++ ("\"\x7d ").data ++ goItoa ap.summary.activeConnections,
        c ≠ '\n' := by
      have hfix1 : ∀ x ∈ ("ap_active_connections\x7bhostname=\"").data, x ≠ '\n' := by decide
      have hfix2 : ∀ x ∈ ("\"\x7d ").data, x ≠ '\n' := by decide
      intro c hc
      rcases List.mem_append.mp hc with hc | hc
      · rcases List.mem_append.mp hc with hc | hc
        · rcases List.mem_append.mp hc with hc | hc
          · exact hfix1 c hc
          · exact hh ap (List.mem_cons_self ap rest) c hc
        · exact hfix2 c hc
      · exact goItoa_ne_newline _ c hc
    have hbody : metricsBody (ap :: rest) =
        (("ap_active_connections\x7bhostname=\"").data ++ ap.summary.hostName.data ++
          ("\"\x7d ").data ++ goItoa ap.summary.activeConnections) ++ '\n' :: metricsBody rest := by
      simp [metricsBody, metricsLineChars, List.append_assoc]
    rw [hbody, splitNl_line _ _ hline, ih (fun x hx => hh x (List.mem_cons_of_mem ap hx))]
    simp

theorem C4_metrics_one_line_per_ap_witness :
    (∀ ap ∈ [(⟨apA, ⟨0, 0⟩⟩ : ReconstructedApData)], ∀ c ∈ ap.summary.hostName.data, c ≠ '\n') ∧
    splitNl (metricsBody [⟨apA, ⟨0, 0⟩⟩]) =
      ([(⟨apA, ⟨0, 0⟩⟩ : ReconstructedApData)].map (fun ap =>
        ("ap_active_connections\x7bhostname=\"").data ++ ap.summary.hostName.data ++
          ("\"\x7d ").data ++ goItoa ap.summary.activeConnections) ++ [[]]) :=
  ⟨by decide, (C4_metrics_one_line_per_ap [⟨apA, ⟨0, 0⟩⟩] (by decide)).2⟩

theorem C10_detail_stub_always_zero_witness :
    ([⟨0, 0⟩] : List AccessPointDetailReadFromTargetApGUI).Subperm
      ([apA].filterMap (apDetailTaskSend envDemo)) ∧
    reconstructJoin [apA] [⟨0, 0⟩] = some [⟨apA, ⟨0, 0⟩⟩] ∧
    (⟨apA, ⟨0, 0⟩⟩ : ReconstructedApData).detail = ⟨0, 0⟩ :=
  ⟨List.Subperm.refl _, rfl,
    C10_detail_stub_always_zero.2.2 envDemo [apA] [⟨0, 0⟩] [⟨apA, ⟨0, 0⟩⟩]
      (List.Subperm.refl _) rfl ⟨apA, ⟨0, 0⟩⟩ (List.mem_singleton.mpr rfl)⟩
